import Mathlib

/-!
Verification of the interest engine of the `monetary` repository
(`src/models/interests.py`) against its natural-language specification.

The Python code is shallowly embedded:

* `datetime.date` becomes the `Date` structure with Gregorian calendar
  arithmetic made explicit (`rataDie` for day differences, lexicographic
  comparison as Python compares date objects, `addMonthsClamped` for
  `dateutil.relativedelta(months=k)` which clamps the day of month to the
  target month's length).
* `dateutil.relativedelta(dt1, dt2)` becomes `relDelta`.  dateutil first
  guesses the month difference from the year/month fields and then corrects
  it with a `while` loop; for calendar dates that loop runs at most one
  iteration (the initial guess lands in `dt1`'s month, and stepping one
  month back/forward leaves the comparison settled), which is what the
  single conditional correction below implements.
* Python `round` (banker's rounding, round half to even) becomes `pyRound`
  on `ℚ`.  Real/float arithmetic of the source is modelled exactly on `ℚ`.
* `Interest.calc_month`, `round(balance * ((1 + frac)**(1/12) - 1))`, takes
  a real twelfth root and hence has no exact rational embedding; the engine
  is parameterised by the function `cm : ℤ → ℚ → ℤ` standing for it, and
  every theorem holds for an arbitrary such parameter (hypotheses such as
  `cm b 0 = 0` state the exact float facts a particular claim needs).
* Exceptions become `Except InterestError`; fields of the `Interest`
  object are mutable in Python, so the computation returns the updated
  object next to the amount.
-/

/-- A calendar date as in Python `datetime.date` (year, month, day). -/
structure Date where
  year : ℤ
  month : ℤ
  day : ℤ
deriving DecidableEq, Repr

/-- Python compares `date` objects lexicographically on (year, month, day). -/
def dateLeB (a b : Date) : Bool :=
  if a.year ≠ b.year then decide (a.year < b.year)
  else if a.month ≠ b.month then decide (a.month < b.month)
  else decide (a.day ≤ b.day)

/-- Strict comparison, `a < b` iff not `b ≤ a` (dates are totally ordered). -/
def dateLtB (a b : Date) : Bool :=
  ! dateLeB b a

/-- Python `min` on two dates: the first argument wins ties. -/
def minDate (a b : Date) : Date :=
  if dateLeB a b then a else b

/-- Gregorian leap year test. -/
def isLeap (y : ℤ) : Bool :=
  y % 4 = 0 && (y % 100 ≠ 0 || y % 400 = 0)

/-- Number of days in a month of the (proleptic) Gregorian calendar. -/
def daysInMonth (y m : ℤ) : ℤ :=
  if m = 2 then (if isLeap y then 29 else 28)
  else if m = 4 ∨ m = 6 ∨ m = 9 ∨ m = 11 then 30
  else 31

/-- A date is valid when its month and day are in range, as enforced by the
`datetime.date` constructor. -/
def Date.Valid (d : Date) : Prop :=
  1 ≤ d.month ∧ d.month ≤ 12 ∧ 1 ≤ d.day ∧ d.day ≤ daysInMonth d.year d.month

instance (d : Date) : Decidable d.Valid := by
  unfold Date.Valid; infer_instance

/-- Rata die (proleptic Gregorian day number); differences of `rataDie`
are the `.days` of Python `date` subtraction. -/
def rataDie (d : Date) : ℤ :=
  365 * (d.year - 1) + (d.year - 1) / 4 - (d.year - 1) / 100
    + (d.year - 1) / 400 + (367 * d.month - 362) / 12
    + (if d.month ≤ 2 then 0 else if isLeap d.year then -1 else -2)
    + d.day

/-- Zero-based month counter: `12 * year + (month - 1)`. -/
def monthIndexD (d : Date) : ℤ :=
  12 * d.year + (d.month - 1)

/-- `d + relativedelta(months := k)`: shift the month counter and clamp the
day to the length of the target month (dateutil never raises here). -/
def addMonthsClamped (d : Date) (k : ℤ) : Date :=
  ⟨(monthIndexD d + k) / 12, (monthIndexD d + k) % 12 + 1,
   min d.day (daysInMonth ((monthIndexD d + k) / 12)
     ((monthIndexD d + k) % 12 + 1))⟩

/-- `dateutil.relativedelta(dt1, dt2)`: the (years, months, days)
decomposition of the span from `dt2` to `dt1`.  The month count is the
year/month field difference, corrected by one when the clamped shift
overshoots `dt1` (dateutil's correction loop runs at most once on calendar
dates); `days` is the day difference to the shifted date, and the month
count is normalised to years plus months with matching signs. -/
def relDelta (dt1 dt2 : Date) : ℤ × ℤ × ℤ :=
  let m0 := monthIndexD dt1 - monthIndexD dt2
  let m :=
    if dateLeB dt2 dt1 then
      (if dateLtB dt1 (addMonthsClamped dt2 m0) then m0 - 1 else m0)
    else
      (if dateLtB (addMonthsClamped dt2 m0) dt1 then m0 + 1 else m0)
  (m.tdiv 12, m.tmod 12, rataDie dt1 - rataDie (addMonthsClamped dt2 m))

/-- Python `round` on an exact rational: round half to even. -/
def pyRound (q : ℚ) : ℤ :=
  if q - (⌊q⌋ : ℚ) < 1/2 then ⌊q⌋
  else if 1/2 < q - (⌊q⌋ : ℚ) then ⌊q⌋ + 1
  else if ⌊q⌋ % 2 = 0 then ⌊q⌋ else ⌊q⌋ + 1

/-- The calculation-method sentinels of the `Interest` class.  The Python
source uses three `object()` sentinels compared by identity; `otherMethod`
stands for any further value a caller may supply (it compares unequal to
each of the three supported sentinels, exactly as an unknown object would). -/
inductive CalcMethod where
  | actualDays
  | actualPeriods
  | equalMonths
  | otherMethod
deriving DecidableEq, Repr

/-- The exceptions the engine can raise: `FromDateAfterToDateError` from
`Interest.__init__` (the spec calls it `DateOrderError`) and the
`ValueError("Next interest date must be < 1 month away")` of
`pro_rata_interest` (the spec calls it `CursorTooFarError`). -/
inductive InterestError where
  | fromDateAfterToDate
  | cursorTooFar
deriving DecidableEq, Repr

/-- The state of an `Interest` object.  `next_interest_date` is always a
date: `__init__` stores the supplied date or defaults to one month after
`from_date`, so the falsy branch of `if self.next_interest_date:` is
unreachable on constructed objects.  `compound` is the optional string
compared against `"monthly"`. -/
structure Interest where
  from_date : Date
  to_date : Date
  start_balance : ℤ
  interest_frac : ℚ
  calculation_method : CalcMethod
  calendar_months : Bool
  compound : Option String
  next_interest_date : Date
deriving DecidableEq, Repr

/-- `Interest.__init__`: store the fields, default `next_interest_date` to
`from_date + relativedelta(months=1)`, and raise when
`from_date > to_date`. -/
def Interest.init (f t : Date) (balance : ℤ) (frac : ℚ)
    (method : CalcMethod) (calMonths : Bool) (compound : Option String)
    (nextDate : Option Date) : Except InterestError Interest :=
  let nid := match nextDate with
    | some d => d
    | none => addMonthsClamped f 1
  if dateLtB t f then .error .fromDateAfterToDate
  else .ok ⟨f, t, balance, frac, method, calMonths, compound, nid⟩

/-- `Interest._som`: the first day of the month after `for_date`. -/
def som (forDate : Date) : Date :=
  if 12 ≤ forDate.month then ⟨forDate.year + 1, 1, 1⟩
  else ⟨forDate.year, forDate.month + 1, 1⟩

/-- The `datetime.date` constructor as a partial function: `some` on a
valid month/day combination, `none` where Python raises `ValueError`
(year bounds are not modelled; the engine never leaves them). -/
def tryMkDate (y m d : ℤ) : Option Date :=
  if 1 ≤ m ∧ m ≤ 12 ∧ 1 ≤ d ∧ d ≤ daysInMonth y m then some ⟨y, m, d⟩
  else none

/-- `Interest._next_compounding_date`: shift `date_from` one month; when
the shifted day is ≥ 28 and smaller than the anchor day
`self.from_date.day`, try to re-anchor to that day, keeping the shifted
date when the anchored date would be invalid (`try/except: pass`). -/
def nextCompoundingDate (anchorDay : ℤ) (dateFrom : Date) : Date :=
  let dateUntil := addMonthsClamped dateFrom 1
  if 28 ≤ dateUntil.day ∧ dateUntil.day < anchorDay then
    match tryMkDate dateUntil.year dateUntil.month anchorDay with
    | some d => d
    | none => dateUntil
  else dateUntil

/-- `Interest.pro_rata_interest`, with the `self.calculation_method ==
self.ACTUAL_DAYS` identity test passed in as `isAD` and the fields passed
explicitly. -/
def proRataInterest (isAD : Bool) (fromD toD nid : Date)
    (balance : ℤ) (frac : ℚ) : Except InterestError ℤ :=
  let m := minDate nid toD
  let p := relDelta m fromD
  if p.2.1 = 1 ∧ p.2.2 = 0 then .ok 0
  else if isAD then
    .ok (pyRound ((balance : ℚ) * frac
      * ((rataDie m - rataDie fromD : ℤ) : ℚ) / 365))
  else if p.1 ≠ 0 ∨ p.2.1 ≠ 0 then .error .cursorTooFar
  else .ok (pyRound ((p.2.2 : ℚ) * frac * (balance : ℚ) / 365))

/-- `Interest.calculate_prorata_at_start`, with the `EQUAL_MONTHS`
identity test passed in as `isEM`. -/
def prorataAtStart (isEM : Bool) (fromD toD : Date)
    (balance : ℤ) (frac : ℚ) : ℤ :=
  let startNextMonth := som fromD
  let prorataDays : ℤ :=
    if dateLtB toD startNextMonth then (relDelta toD fromD).2.2
    else if isEM then (if fromD.day < 30 then 30 - fromD.day else 0)
    else (relDelta startNextMonth fromD).2.2
  pyRound ((prorataDays : ℚ) * frac * (balance : ℚ) / 365)

/-- `Interest._calculate_pro_ratas`: the head amounts plus the date the
main decomposition starts from (capped at `to_date`). -/
def calcProRatas (isAD isEM calMonths : Bool) (fromD toD nid : Date)
    (balance : ℤ) (frac : ℚ) : Except InterestError (List ℤ × Date) :=
  if calMonths then
    .ok ([prorataAtStart isEM fromD toD balance frac],
         minDate (som fromD) toD)
  else
    match proRataInterest isAD fromD toD nid balance frac with
    | .error e => .error e
    | .ok pr =>
      let fromNew := if pr ≠ 0 then minDate nid toD else fromD
      .ok ([pr], minDate fromNew toD)

/-- The month-by-month compounding loop of `calculate_sum_periods`
(`for _ in range(period.months)` under `compound == "monthly"`), carried
state: next interest date, `date_from`, `current_balance`, amounts. -/
def compoundLoop (cm : ℤ → ℚ → ℤ) (isAD : Bool) (anchorDay : ℤ)
    (frac : ℚ) (toD : Date) :
    ℕ → Date → Date → ℤ → List ℤ → Date × Date × ℤ × List ℤ
  | 0, nid, dateFrom, current, acc => (nid, dateFrom, current, acc)
  | n + 1, _, dateFrom, current, acc =>
    let nid := nextCompoundingDate anchorDay dateFrom
    let interest :=
      if isAD then
        pyRound ((current : ℚ) * frac
          * ((rataDie nid - rataDie dateFrom : ℤ) : ℚ) / 365)
      else cm current frac
    compoundLoop cm isAD anchorDay frac toD n nid (minDate nid toD)
      (current + interest) (acc ++ [interest])

/-- `Interest.calculate_sum_periods` with the identity tests hoisted into
the Boolean flags `isAD`, `isEM`, `isMonthly` and the fields passed
explicitly; returns the summed amount and the final
`next_interest_date`. -/
def sumPeriodsCore (cm : ℤ → ℚ → ℤ) (isAD isEM isMonthly calMonths : Bool)
    (fromD toD nid : Date) (balance : ℤ) (frac : ℚ) :
    Except InterestError (ℤ × Date) :=
  match calcProRatas isAD isEM calMonths fromD toD nid balance frac with
  | .error e => .error e
  | .ok (heads, fromNew) =>
    let p := relDelta toD fromNew
    let yearsN : ℤ := if isMonthly then 0 else p.1
    let monthsN : ℤ := if isMonthly then p.2.1 + 12 * p.1 else p.2.1
    let yearsAmt := pyRound ((yearsN : ℚ) * (balance : ℚ) * frac)
    let base := heads ++ [yearsAmt]
    let daysTail : ℤ :=
      if isEM && decide (30 < toD.day) then p.2.2 - 1 else p.2.2
    if isMonthly then
      let current0 := balance + base.sum
      let lp := compoundLoop cm isAD fromD.day frac toD
        monthsN.toNat nid fromNew current0 []
      let tailAmt :=
        pyRound ((daysTail : ℚ) * (lp.2.2.1 : ℚ) * frac / 365)
      let nidFinal :=
        if dateLeB lp.1 toD then nextCompoundingDate fromD.day lp.2.1
        else lp.1
      .ok ((base ++ lp.2.2.2 ++ [tailAmt]).sum, nidFinal)
    else
      let monthsAmt := monthsN * cm balance frac
      let tailAmt :=
        pyRound ((daysTail : ℚ) * (balance : ℚ) * frac / 365)
      .ok ((base ++ [monthsAmt, tailAmt]).sum, nid)

/-- `Interest.calculate_sum_periods` on an `Interest` state, rebuilding
the state with the (possibly advanced) `next_interest_date`. -/
def calculateSumPeriods (cm : ℤ → ℚ → ℤ) (s : Interest) :
    Except InterestError (ℤ × Interest) :=
  match sumPeriodsCore cm (decide (s.calculation_method = .actualDays))
      (decide (s.calculation_method = .equalMonths))
      (decide (s.compound = some "monthly")) s.calendar_months
      s.from_date s.to_date s.next_interest_date
      s.start_balance s.interest_frac with
  | .error e => .error e
  | .ok (a, nid) => .ok (a, { s with next_interest_date := nid })

/-- `Interest.amount_cents`: the actual-days fast path when not
compounding monthly, otherwise the period decomposition; the result is
passed through `round` (identity on the integer sum of the slow path). -/
def amountCents (cm : ℤ → ℚ → ℤ) (s : Interest) :
    Except InterestError (ℤ × Interest) :=
  if s.calculation_method = .actualDays ∧ s.compound ≠ some "monthly" then
    .ok (pyRound ((s.start_balance : ℚ) * s.interest_frac
      * ((rataDie s.to_date - rataDie s.from_date : ℤ) : ℚ) / 365), s)
  else
    match calculateSumPeriods cm s with
    | .error e => .error e
    | .ok (a, s2) => .ok (pyRound ((a : ℤ) : ℚ), s2)

/-- Constructing an `Interest` and computing its amount in one step (the
`compute_interest` contract of the specification). -/
def computeInterest (cm : ℤ → ℚ → ℤ) (f t : Date) (balance : ℤ)
    (frac : ℚ) (method : CalcMethod) (calMonths : Bool)
    (compound : Option String) (nextDate : Option Date) :
    Except InterestError (ℤ × Interest) :=
  match Interest.init f t balance frac method calMonths compound nextDate with
  | .error e => .error e
  | .ok s => amountCents cm s

/-- One element of the `periodic_amounts` list of `RunningInterest`. -/
structure PeriodSpec where
  from_date : Date
  to_date : Date
  start_balance : ℤ
  interest_frac : ℚ
deriving DecidableEq, Repr

/-- `RunningInterest.__init__`: build one `Interest` per periodic amount
(with the shared method/flags and a defaulted `next_interest_date`),
propagating a date-order failure. -/
def RunningInterest.init (specs : List PeriodSpec) (method : CalcMethod)
    (calMonths : Bool) (compound : Option String) :
    Except InterestError (List Interest) :=
  match specs with
  | [] => .ok []
  | a :: rest =>
    match Interest.init a.from_date a.to_date a.start_balance
        a.interest_frac method calMonths compound none with
    | .error e => .error e
    | .ok i =>
      match RunningInterest.init rest method calMonths compound with
      | .error e => .error e
      | .ok l => .ok (i :: l)

/-- The loop of `RunningInterest.amount_cents`: inject the running cursor
into each period, compute, read the (possibly advanced) cursor back, and
sum; the mutated period objects are returned next to the total. -/
def runGo (cm : ℤ → ℚ → ℤ) (cursor : Date) :
    List Interest → Except InterestError (ℤ × List Interest)
  | [] => .ok (0, [])
  | p :: rest =>
    match amountCents cm { p with next_interest_date := cursor } with
    | .error e => .error e
    | .ok (a, p2) =>
      match runGo cm p2.next_interest_date rest with
      | .error e => .error e
      | .ok (rest_sum, rest2) => .ok (a + rest_sum, p2 :: rest2)

/-- `RunningInterest.amount_cents`: seed the cursor from the first
period's `next_interest_date` and run the chain. -/
def runningAmountCents (cm : ℤ → ℚ → ℤ) (ps : List Interest) :
    Except InterestError (ℤ × List Interest) :=
  match ps with
  | [] => .ok (0, [])
  | p :: _ => runGo cm p.next_interest_date ps

/-- Constructing a `RunningInterest` and computing its amount in one step. -/
def runningCompute (cm : ℤ → ℚ → ℤ) (specs : List PeriodSpec)
    (method : CalcMethod) (calMonths : Bool) (compound : Option String) :
    Except InterestError (ℤ × List Interest) :=
  match RunningInterest.init specs method calMonths compound with
  | .error e => .error e
  | .ok l => runningAmountCents cm l

/-! ### Basic lemmas about the embedding -/

/-- `round` of an integer is that integer. -/
theorem pyRound_intCast (n : ℤ) : pyRound (n : ℚ) = n := by
  unfold pyRound
  simp [Int.floor_intCast]

/-- `round 0 = 0`. -/
theorem pyRound_zero : pyRound 0 = 0 := by
  simpa using pyRound_intCast 0

/-- Rounding moves a rational by at most one half. -/
theorem pyRound_abs_sub_le (q : ℚ) : |(pyRound q : ℚ) - q| ≤ 1/2 := by
  unfold pyRound
  have h0 : (⌊q⌋ : ℚ) ≤ q := Int.floor_le q
  have h1 : q < (⌊q⌋ : ℚ) + 1 := Int.lt_floor_add_one q
  split_ifs with hlt hgt heven
  · rw [abs_sub_comm, abs_of_nonneg (by linarith)]
    linarith
  · push_cast
    rw [abs_of_nonneg (by linarith)]
    linarith
  · have : q - (⌊q⌋ : ℚ) = 1/2 := le_antisymm (not_lt.mp hgt) (not_lt.mp hlt)
    rw [abs_sub_comm, abs_of_nonneg (by linarith)]
    linarith
  · have : q - (⌊q⌋ : ℚ) = 1/2 := le_antisymm (not_lt.mp hgt) (not_lt.mp hlt)
    push_cast
    rw [abs_of_nonneg (by linarith)]
    linarith

/-- Rounding two pieces separately lands within one unit of rounding the
sum. -/
theorem pyRound_add_close (x y : ℚ) :
    (pyRound x + pyRound y - pyRound (x + y)).natAbs ≤ 1 := by
  have hx := pyRound_abs_sub_le x
  have hy := pyRound_abs_sub_le y
  have hxy := pyRound_abs_sub_le (x + y)
  have hq : |((pyRound x + pyRound y - pyRound (x + y) : ℤ) : ℚ)| ≤ 3/2 := by
    have : ((pyRound x + pyRound y - pyRound (x + y) : ℤ) : ℚ)
        = ((pyRound x : ℚ) - x) + ((pyRound y : ℚ) - y)
          - ((pyRound (x + y) : ℚ) - (x + y)) := by
      push_cast; ring
    rw [this]
    calc |((pyRound x : ℚ) - x) + ((pyRound y : ℚ) - y)
          - ((pyRound (x + y) : ℚ) - (x + y))|
        ≤ |((pyRound x : ℚ) - x) + ((pyRound y : ℚ) - y)|
          + |(pyRound (x + y) : ℚ) - (x + y)| := abs_sub _ _
      _ ≤ (|(pyRound x : ℚ) - x| + |(pyRound y : ℚ) - y|)
          + |(pyRound (x + y) : ℚ) - (x + y)| := by
            have := abs_add ((pyRound x : ℚ) - x) ((pyRound y : ℚ) - y)
            linarith
      _ ≤ 3/2 := by linarith
  by_contra hcon
  have h2 : 2 ≤ (pyRound x + pyRound y - pyRound (x + y)).natAbs := by omega
  have h3 : (2 : ℚ) ≤ |((pyRound x + pyRound y - pyRound (x + y) : ℤ) : ℚ)| := by
    rw [← Int.cast_abs]
    have : (2 : ℤ) ≤ |pyRound x + pyRound y - pyRound (x + y)| := by
      rw [Int.abs_eq_natAbs]; exact_mod_cast h2
    exact_mod_cast this
  linarith

/-- Months of a shift by `k` months: the month counter moves by exactly
`k`. -/
theorem monthIndexD_addMonthsClamped (d : Date) (k : ℤ) :
    monthIndexD (addMonthsClamped d k) = monthIndexD d + k := by
  simp only [addMonthsClamped, monthIndexD]
  omega

/-- The month of a clamped shift lies between 1 and 12. -/
theorem addMonthsClamped_month_bounds (d : Date) (k : ℤ) :
    1 ≤ (addMonthsClamped d k).month ∧ (addMonthsClamped d k).month ≤ 12 := by
  simp only [addMonthsClamped, monthIndexD]
  omega

/-- When the state is not compounding monthly, `calculate_sum_periods`
leaves `next_interest_date` (the only field any branch assigns) at its
incoming value. -/
theorem sumPeriodsCore_nid (cm : ℤ → ℚ → ℤ) (isAD isEM calM : Bool)
    (fromD toD nid : Date) (balance : ℤ) (frac : ℚ) (a : ℤ) (nid2 : Date)
    (h : sumPeriodsCore cm isAD isEM false calM fromD toD nid balance frac
      = .ok (a, nid2)) : nid2 = nid := by
  unfold sumPeriodsCore at h
  cases hpr : calcProRatas isAD isEM calM fromD toD nid balance frac with
  | error e => rw [hpr] at h; exact absurd h (by simp)
  | ok v =>
    rw [hpr] at h
    simp only [Bool.false_eq_true, if_false] at h
    cases h
    rfl

/-- `amount_cents` without monthly compounding returns the state it was
given: no field of the object is mutated. -/
theorem amountCents_state_eq (cm : ℤ → ℚ → ℤ) (s : Interest) (a : ℤ)
    (s2 : Interest) (hc : s.compound ≠ some "monthly")
    (h : amountCents cm s = .ok (a, s2)) : s2 = s := by
  unfold amountCents at h
  split_ifs at h with hfast
  · cases h; rfl
  · unfold calculateSumPeriods at h
    have hdec : decide (s.compound = some "monthly") = false := by
      simpa using hc
    rw [hdec] at h
    cases hcore : sumPeriodsCore cm (decide (s.calculation_method = .actualDays))
        (decide (s.calculation_method = .equalMonths)) false s.calendar_months
        s.from_date s.to_date s.next_interest_date s.start_balance
        s.interest_frac with
    | error e => rw [hcore] at h; exact absurd h (by simp)
    | ok v =>
      rw [hcore] at h
      cases h
      have := sumPeriodsCore_nid cm _ _ _ _ _ _ _ _ _ v.2 hcore
      rw [this]

/-! ### The claims -/

/-- C1: with the `ActualDays` convention and compounding not set to
monthly, `amount_cents` returns
`round(start_balance * interest_frac * days_elapsed / 365)` where
`days_elapsed` is the number of calendar days from `from_date` to
`to_date`, and the object is untouched. -/
theorem actual_days_amount_formula (cm : ℤ → ℚ → ℤ) (s : Interest)
    (hm : s.calculation_method = .actualDays)
    (hc : s.compound ≠ some "monthly") :
    amountCents cm s
      = .ok (pyRound ((s.start_balance : ℚ) * s.interest_frac
        * ((rataDie s.to_date - rataDie s.from_date : ℤ) : ℚ) / 365), s) := by
  unfold amountCents
  rw [if_pos ⟨hm, hc⟩]

/-- Witness for C1: the 2021-12-01 → 2022-01-15 period of the test suite,
with balance 15000 at rate 0.1 over 45 days, yields 185. -/
theorem actual_days_amount_formula_witness :
    ((⟨⟨2021,12,1⟩, ⟨2022,1,15⟩, 15000, 1/10, .actualDays, false, none,
        ⟨2022,1,1⟩⟩ : Interest).calculation_method = .actualDays)
    ∧ ((⟨⟨2021,12,1⟩, ⟨2022,1,15⟩, 15000, 1/10, .actualDays, false, none,
        ⟨2022,1,1⟩⟩ : Interest).compound ≠ some "monthly")
    ∧ amountCents (fun _ _ => 0)
        ⟨⟨2021,12,1⟩, ⟨2022,1,15⟩, 15000, 1/10, .actualDays, false, none,
          ⟨2022,1,1⟩⟩
      = .ok (185, ⟨⟨2021,12,1⟩, ⟨2022,1,15⟩, 15000, 1/10, .actualDays,
          false, none, ⟨2022,1,1⟩⟩) := by
  refine ⟨rfl, by decide, ?_⟩
  rw [actual_days_amount_formula (fun _ _ => 0) _ rfl (by decide)]
  norm_num [pyRound, rataDie, isLeap]

/-- C2 (counterexample): the date-order violation is detected at
construction — `__init__` on `from_date` 2032-03-01 > `to_date` 2023-01-12
(the repository's own `test_dates_order` input) raises — while the amount
computation itself never re-checks the order: a state mutated to
`from_date > to_date` still produces an amount (here −27 over −1 days). -/
theorem date_order_detection_cex :
    Interest.init ⟨2032,3,1⟩ ⟨2023,1,12⟩ 155000 (1/20) .actualDays false
        none none = .error .fromDateAfterToDate
    ∧ Except.map Prod.fst (amountCents (fun _ _ => 0)
        ⟨⟨2022,1,2⟩, ⟨2022,1,1⟩, 100000, 1/10, .actualDays, false, none,
          ⟨2022,2,2⟩⟩) = .ok (-27) := by
  refine ⟨rfl, ?_⟩
  norm_num [amountCents, Except.map, pyRound, rataDie, isLeap]
  rw [if_neg (by simp)]

/-- C2 (amended): the `DateOrderError` check runs eagerly at construction
time — `__init__` fails exactly when `from_date > to_date`, and a failed
construction yields no object — while computing the amount performs no
date-order check at all: on any state (even one whose mutable fields were
set to `from_date > to_date` after construction) the actual-days,
non-compounding computation returns an amount. -/
theorem date_order_checked_at_construction (cm : ℤ → ℚ → ℤ)
    (f t : Date) (balance : ℤ) (frac : ℚ) (method : CalcMethod)
    (calM : Bool) (comp : Option String) (nd : Option Date) (s : Interest) :
    (Interest.init f t balance frac method calM comp nd
        = .error .fromDateAfterToDate ↔ dateLtB t f = true)
    ∧ (s.calculation_method = .actualDays → s.compound ≠ some "monthly" →
        amountCents cm s
          = .ok (pyRound ((s.start_balance : ℚ) * s.interest_frac
            * ((rataDie s.to_date - rataDie s.from_date : ℤ) : ℚ) / 365),
            s)) := by
  constructor
  · cases h : dateLtB t f <;> simp [Interest.init, h]
  · intro h1 h2
    unfold amountCents
    rw [if_pos ⟨h1, h2⟩]

/-- Witness for C2 (amended): construction fails on a reversed span, and
the computation succeeds on a mutated reversed-span state. -/
theorem date_order_checked_at_construction_witness :
    Interest.init ⟨2022,1,2⟩ ⟨2022,1,1⟩ 1000 (1/10) .actualDays false
        none none = .error .fromDateAfterToDate
    ∧ amountCents (fun _ _ => 0)
        ⟨⟨2022,1,2⟩, ⟨2022,1,1⟩, 100000, 1/10, .actualDays, false, none,
          ⟨2022,2,2⟩⟩
      = .ok (pyRound ((100000 : ℚ) * (1/10)
          * ((rataDie ⟨2022,1,1⟩ - rataDie ⟨2022,1,2⟩ : ℤ) : ℚ) / 365),
        ⟨⟨2022,1,2⟩, ⟨2022,1,1⟩, 100000, 1/10, .actualDays, false, none,
          ⟨2022,2,2⟩⟩) := by
  have h := date_order_checked_at_construction (fun _ _ => 0)
    ⟨2022,1,2⟩ ⟨2022,1,1⟩ 1000 (1/10) .actualDays false none none
    ⟨⟨2022,1,2⟩, ⟨2022,1,1⟩, 100000, 1/10, .actualDays, false, none,
      ⟨2022,2,2⟩⟩
  exact ⟨h.1.mpr (by decide), h.2 rfl (by decide)⟩

/-- The next-compounding-date rule exactly as the claim words it: shift
one calendar month; when the shifted day is at least 28 and strictly
below the original anchor day-of-month, re-anchor to the anchor day in
the shifted month if that day is valid there, else keep the shifted
date. -/
def nextCompoundingDateSpec (anchorDay : ℤ) (dateFrom : Date) : Date :=
  if 28 ≤ (addMonthsClamped dateFrom 1).day
      ∧ (addMonthsClamped dateFrom 1).day < anchorDay
      ∧ 1 ≤ anchorDay
      ∧ anchorDay ≤ daysInMonth (addMonthsClamped dateFrom 1).year
          (addMonthsClamped dateFrom 1).month then
    ⟨(addMonthsClamped dateFrom 1).year, (addMonthsClamped dateFrom 1).month,
      anchorDay⟩
  else addMonthsClamped dateFrom 1

/-- C6: `_next_compounding_date` computes exactly the claim's rule — the
one-month shift with ≥28/anchored re-anchoring, total on every input
(never raising on invalid dates such as day 31 in short months). -/
theorem next_compounding_date_matches_spec (anchorDay : ℤ) (d : Date) :
    nextCompoundingDate anchorDay d = nextCompoundingDateSpec anchorDay d := by
  have hm := addMonthsClamped_month_bounds d 1
  simp only [nextCompoundingDate, nextCompoundingDateSpec, tryMkDate]
  split_ifs with h1 h2 h3 h4 h5 <;> first
    | rfl
    | (exfalso; tauto)

/-- C10: when the compound mode is not `"monthly"`, `amount_cents`
returns the very state it was given — every field, in particular
`next_interest_date`, is unchanged. -/
theorem amount_cents_no_mutation_without_monthly (cm : ℤ → ℚ → ℤ)
    (s : Interest) (a : ℤ) (s2 : Interest)
    (hc : s.compound ≠ some "monthly")
    (h : amountCents cm s = .ok (a, s2)) : s2 = s :=
  amountCents_state_eq cm s a s2 hc h

/-- Witness for C10: a concrete non-monthly computation whose returned
state equals the input state. -/
theorem amount_cents_no_mutation_without_monthly_witness :
    ((⟨⟨2021,12,1⟩, ⟨2022,1,15⟩, 15000, 1/10, .actualDays, false, none,
        ⟨2022,1,1⟩⟩ : Interest).compound ≠ some "monthly")
    ∧ amountCents (fun _ _ => 0)
        ⟨⟨2021,12,1⟩, ⟨2022,1,15⟩, 15000, 1/10, .actualDays, false, none,
          ⟨2022,1,1⟩⟩
      = .ok (185, ⟨⟨2021,12,1⟩, ⟨2022,1,15⟩, 15000, 1/10, .actualDays,
          false, none, ⟨2022,1,1⟩⟩)
    ∧ (⟨⟨2021,12,1⟩, ⟨2022,1,15⟩, 15000, 1/10, .actualDays, false, none,
        ⟨2022,1,1⟩⟩ : Interest)
      = ⟨⟨2021,12,1⟩, ⟨2022,1,15⟩, 15000, 1/10, .actualDays, false, none,
        ⟨2022,1,1⟩⟩ := by
  have hcomp : amountCents (fun _ _ => 0)
      ⟨⟨2021,12,1⟩, ⟨2022,1,15⟩, 15000, 1/10, .actualDays, false, none,
        ⟨2022,1,1⟩⟩
      = .ok (185, ⟨⟨2021,12,1⟩, ⟨2022,1,15⟩, 15000, 1/10, .actualDays,
          false, none, ⟨2022,1,1⟩⟩) := by
    norm_num [amountCents, pyRound, rataDie, isLeap]
    intro h
    exact Option.noConfusion h
  exact ⟨by decide, hcomp,
    amount_cents_no_mutation_without_monthly (fun _ _ => 0) _ 185 _
      (by decide) hcomp⟩

/-- `amount_cents` under a convention other than `ACTUAL_DAYS` always
takes the `calculate_sum_periods` path. -/
theorem amountCents_not_ad (cm : ℤ → ℚ → ℤ) (s : Interest)
    (h1 : s.calculation_method ≠ .actualDays) :
    amountCents cm s =
      match sumPeriodsCore cm false
          (decide (s.calculation_method = .equalMonths))
          (decide (s.compound = some "monthly")) s.calendar_months
          s.from_date s.to_date s.next_interest_date s.start_balance
          s.interest_frac with
      | .error e => .error e
      | .ok (a, nid) =>
          .ok (pyRound ((a : ℤ) : ℚ), { s with next_interest_date := nid }) := by
  unfold amountCents calculateSumPeriods
  rw [if_neg (fun hand => h1 hand.1), decide_eq_false h1]
  cases hcore : sumPeriodsCore cm false
      (decide (s.calculation_method = .equalMonths))
      (decide (s.compound = some "monthly")) s.calendar_months s.from_date
      s.to_date s.next_interest_date s.start_balance s.interest_frac with
  | error e => simp [hcore]
  | ok v =>
    obtain ⟨a, nid⟩ := v
    simp [hcore]

/-- C4 (counterexample): supplying an unsupported convention value or an
unsupported compound mode does not fail — both computations succeed and
return an amount (384 over 14 days), so no `UnknownConventionError` or
`UnknownCompoundModeError` is ever raised (the code defines no such
errors). -/
theorem unknown_enum_values_cex :
    Except.map Prod.fst (computeInterest (fun _ _ => 0) ⟨2022,1,1⟩
        ⟨2022,1,15⟩ 100000 (1/10) .otherMethod false none none)
      = .ok 384
    ∧ Except.map Prod.fst (computeInterest (fun _ _ => 0) ⟨2022,1,1⟩
        ⟨2022,1,15⟩ 100000 (1/10) .actualDays false (some "weekly") none)
      = .ok 384 := by
  constructor
  · norm_num [computeInterest, Interest.init, amountCents,
      calculateSumPeriods, sumPeriodsCore, calcProRatas, proRataInterest,
      minDate, relDelta, addMonthsClamped, monthIndexD, dateLeB, dateLtB,
      rataDie, isLeap, daysInMonth, pyRound, Except.map, compoundLoop]
  · norm_num [computeInterest, Interest.init, amountCents,
      calculateSumPeriods, sumPeriodsCore, calcProRatas, proRataInterest,
      minDate, relDelta, addMonthsClamped, monthIndexD, dateLeB, dateLtB,
      rataDie, isLeap, daysInMonth, pyRound, Except.map, compoundLoop]

/-- C4 (amended): unsupported enum values are silently accepted, never
rejected: a convention that is none of the three sentinels is computed
exactly like `ACTUAL_PERIODS` (every identity test it appears in is
false), and a compound mode other than `"monthly"` behaves exactly like
no compounding — in both cases the returned amount and resulting cursor
coincide with the supported-value computation. -/
theorem unknown_enum_values_fall_through (cm : ℤ → ℚ → ℤ) (s : Interest)
    (c : String) (hc : c ≠ "monthly") :
    Except.map (fun p => (p.1, p.2.next_interest_date))
        (amountCents cm { s with calculation_method := .otherMethod })
      = Except.map (fun p => (p.1, p.2.next_interest_date))
        (amountCents cm { s with calculation_method := .actualPeriods })
    ∧ Except.map (fun p => (p.1, p.2.next_interest_date))
        (amountCents cm { s with compound := some c })
      = Except.map (fun p => (p.1, p.2.next_interest_date))
        (amountCents cm { s with compound := none }) := by
  constructor
  · rw [amountCents_not_ad cm _ (by simp), amountCents_not_ad cm _ (by simp)]
    simp only
    cases hcore : sumPeriodsCore cm false false
        (decide (s.compound = some "monthly")) s.calendar_months
        s.from_date s.to_date s.next_interest_date s.start_balance
        s.interest_frac with
    | error e => simp [hcore, Except.map]
    | ok v =>
      obtain ⟨a, nid⟩ := v
      simp [hcore, Except.map]
  · have hcc : ((some c : Option String) = some "monthly") = False := by
      simp [hc]
    by_cases hm : s.calculation_method = .actualDays
    · unfold amountCents
      rw [if_pos ⟨hm, by simp [hc]⟩, if_pos ⟨hm, by simp⟩]
      simp [Except.map]
    · have hdec : decide ((some c : Option String) = some "monthly") = false :=
        decide_eq_false (by simp [hc])
      rw [amountCents_not_ad cm _ (by simpa using hm),
        amountCents_not_ad cm _ (by simpa using hm)]
      simp only [hdec]
      cases hcore : sumPeriodsCore cm false
          (decide (s.calculation_method = .equalMonths)) false
          s.calendar_months s.from_date s.to_date s.next_interest_date
          s.start_balance s.interest_frac with
      | error e => simp [hcore, Except.map]
      | ok v =>
        obtain ⟨a, nid⟩ := v
        simp [hcore, Except.map]

/-- Witness for C4 (amended): the fall-through equalities at a concrete
state and the unsupported compound string `"weekly"`. -/
theorem unknown_enum_values_fall_through_witness :
    ("weekly" ≠ "monthly")
    ∧ (Except.map (fun p => (p.1, p.2.next_interest_date))
        (amountCents (fun _ _ => 0)
          { (⟨⟨2022,1,1⟩, ⟨2022,1,15⟩, 100000, 1/10, .actualPeriods, false,
              none, ⟨2022,2,1⟩⟩ : Interest) with
            calculation_method := .otherMethod })
      = Except.map (fun p => (p.1, p.2.next_interest_date))
        (amountCents (fun _ _ => 0)
          { (⟨⟨2022,1,1⟩, ⟨2022,1,15⟩, 100000, 1/10, .actualPeriods, false,
              none, ⟨2022,2,1⟩⟩ : Interest) with
            calculation_method := .actualPeriods }))
    ∧ (Except.map (fun p => (p.1, p.2.next_interest_date))
        (amountCents (fun _ _ => 0)
          { (⟨⟨2022,1,1⟩, ⟨2022,1,15⟩, 100000, 1/10, .actualPeriods, false,
              none, ⟨2022,2,1⟩⟩ : Interest) with
            compound := some "weekly" })
      = Except.map (fun p => (p.1, p.2.next_interest_date))
        (amountCents (fun _ _ => 0)
          { (⟨⟨2022,1,1⟩, ⟨2022,1,15⟩, 100000, 1/10, .actualPeriods, false,
              none, ⟨2022,2,1⟩⟩ : Interest) with
            compound := none })) := by
  have h := unknown_enum_values_fall_through (fun _ _ => 0)
    ⟨⟨2022,1,1⟩, ⟨2022,1,15⟩, 100000, 1/10, .actualPeriods, false,
      none, ⟨2022,2,1⟩⟩ "weekly" (by decide)
  exact ⟨by decide, h.1, h.2⟩

/-- With calendar months off and a `to_date` day of month of at most 30,
the `EQUAL_MONTHS` identity tests never fire, so the whole period
decomposition is blind to the `isEM` flag. -/
theorem sumPeriodsCore_em_irrel (cm : ℤ → ℚ → ℤ) (isAD isMon e1 e2 : Bool)
    (fromD toD nid : Date) (balance : ℤ) (frac : ℚ)
    (hday : toD.day ≤ 30) :
    sumPeriodsCore cm isAD e1 isMon false fromD toD nid balance frac
      = sumPeriodsCore cm isAD e2 isMon false fromD toD nid balance frac := by
  have hd : decide (30 < toD.day) = false := decide_eq_false (by omega)
  unfold sumPeriodsCore calcProRatas
  simp only [Bool.false_eq_true, if_false, hd, Bool.and_false]

/-- C5: with default calendar-month alignment off, whenever the days of
month of `from_date` and `to_date` are both at most 28, the
`ACTUAL_PERIODS` and `EQUAL_MONTHS` conventions return the same interest
amount on otherwise identical inputs. -/
theorem ap_em_agree_when_days_le_28 (cm : ℤ → ℚ → ℤ) (s : Interest)
    (hcal : s.calendar_months = false)
    (hfrom : s.from_date.day ≤ 28) (hto : s.to_date.day ≤ 28) :
    Except.map Prod.fst
        (amountCents cm { s with calculation_method := .actualPeriods })
      = Except.map Prod.fst
        (amountCents cm { s with calculation_method := .equalMonths }) := by
  have d1 : decide (CalcMethod.actualPeriods = CalcMethod.equalMonths)
      = false := by decide
  have d2 : decide (CalcMethod.equalMonths = CalcMethod.equalMonths)
      = true := by decide
  rw [amountCents_not_ad cm _ (by simp), amountCents_not_ad cm _ (by simp)]
  simp only [d1, d2, hcal, eq_self_iff_true, decide_True]
  rw [sumPeriodsCore_em_irrel cm false (decide (s.compound = some "monthly"))
    true false s.from_date s.to_date s.next_interest_date s.start_balance
    s.interest_frac (by omega)]
  cases hcore : sumPeriodsCore cm false false
      (decide (s.compound = some "monthly")) false s.from_date s.to_date
      s.next_interest_date s.start_balance s.interest_frac with
  | error e => simp [hcore]
  | ok v =>
    obtain ⟨a, nid⟩ := v
    simp [hcore, Except.map]

/-- Witness for C5: the spec example — balance 150000 at rate 2.0 over
2022-03-01 → 2023-03-01 gives 300000 under both conventions. -/
theorem ap_em_agree_when_days_le_28_witness :
    ((⟨⟨2022,3,1⟩, ⟨2023,3,1⟩, 150000, 2, .actualPeriods, false, none,
        ⟨2022,4,1⟩⟩ : Interest).calendar_months = false)
    ∧ ((⟨⟨2022,3,1⟩, ⟨2023,3,1⟩, 150000, 2, .actualPeriods, false, none,
        ⟨2022,4,1⟩⟩ : Interest).from_date.day ≤ 28)
    ∧ ((⟨⟨2022,3,1⟩, ⟨2023,3,1⟩, 150000, 2, .actualPeriods, false, none,
        ⟨2022,4,1⟩⟩ : Interest).to_date.day ≤ 28)
    ∧ Except.map Prod.fst (amountCents (fun _ _ => 0)
        { (⟨⟨2022,3,1⟩, ⟨2023,3,1⟩, 150000, 2, .actualPeriods, false, none,
            ⟨2022,4,1⟩⟩ : Interest) with calculation_method := .actualPeriods })
      = Except.map Prod.fst (amountCents (fun _ _ => 0)
        { (⟨⟨2022,3,1⟩, ⟨2023,3,1⟩, 150000, 2, .actualPeriods, false, none,
            ⟨2022,4,1⟩⟩ : Interest) with calculation_method := .equalMonths })
    ∧ Except.map Prod.fst (amountCents (fun _ _ => 0)
        { (⟨⟨2022,3,1⟩, ⟨2023,3,1⟩, 150000, 2, .actualPeriods, false, none,
            ⟨2022,4,1⟩⟩ : Interest) with calculation_method := .actualPeriods })
      = .ok 300000 := by
  refine ⟨rfl, by decide, by decide,
    ap_em_agree_when_days_le_28 (fun _ _ => 0) _ rfl (by decide) (by decide),
    ?_⟩
  norm_num +decide [amountCents, calculateSumPeriods, sumPeriodsCore,
    calcProRatas, proRataInterest, minDate, relDelta, addMonthsClamped,
    monthIndexD, dateLeB, dateLtB, rataDie, isLeap, daysInMonth, pyRound,
    Except.map, compoundLoop, Int.tdiv, Int.tmod]

/-- Unfolding of the lexicographic date order into arithmetic. -/
theorem dateLeB_iff (a b : Date) : dateLeB a b = true ↔
    (a.year < b.year ∨ (a.year = b.year ∧ (a.month < b.month
      ∨ (a.month = b.month ∧ a.day ≤ b.day)))) := by
  unfold dateLeB
  split_ifs with h1 h2 <;> simp <;> omega

/-- The date order is transitive. -/
theorem dateLeB_trans {a b c : Date} (h1 : dateLeB a b = true)
    (h2 : dateLeB b c = true) : dateLeB a c = true := by
  rw [dateLeB_iff] at h1 h2 ⊢
  omega

/-- C3 (counterexample): a supplied `next_interest_date` thirteen months
after `from_date` spans far more than one month, yet under the periodic
`ACTUAL_PERIODS` convention `pro_rata_interest` returns 0 instead of
raising `CursorTooFarError` — `relativedelta` normalises 13 months to
1 year + 1 month, and the zero branch only inspects the months/days
components — and the whole computation then succeeds with amount 10000. -/
theorem pro_rata_cursor_rule_cex :
    relDelta (minDate ⟨2023,2,1⟩ ⟨2023,6,1⟩) ⟨2022,1,1⟩ = (1, 1, 0)
    ∧ proRataInterest false ⟨2022,1,1⟩ ⟨2023,6,1⟩ ⟨2023,2,1⟩ 100000 (1/10)
      = .ok 0
    ∧ Except.map Prod.fst (computeInterest (fun _ _ => 0) ⟨2022,1,1⟩
        ⟨2023,6,1⟩ 100000 (1/10) .actualPeriods false none
        (some ⟨2023,2,1⟩)) = .ok 10000 := by
  refine ⟨by decide, ?_, ?_⟩
  · norm_num +decide [proRataInterest, minDate, relDelta, addMonthsClamped,
      monthIndexD, dateLeB, dateLtB, rataDie, isLeap, daysInMonth, pyRound,
      Int.tdiv, Int.tmod]
  · norm_num +decide [computeInterest, Interest.init, amountCents,
      calculateSumPeriods, sumPeriodsCore, calcProRatas, proRataInterest,
      minDate, relDelta, addMonthsClamped, monthIndexD, dateLeB, dateLtB,
      rataDie, isLeap, daysInMonth, pyRound, Except.map, compoundLoop,
      Int.tdiv, Int.tmod]

/-- C3 (amended): under a periodic (non-actual-days) convention with a
supplied `next_interest_date`, writing `p` for the calendar decomposition
of the span from `from_date` to `min(next_interest_date, to_date)`: the
pro-rata component is 0 exactly when `p` has months = 1 and days = 0 —
including spans longer than a year, since whole years in `p` are not
inspected by that test; `CursorTooFarError` is raised when `p` has a
nonzero years or months component and is not of that shape; and a
sub-month span yields the days-pro-rata amount. -/
theorem pro_rata_cursor_rule (fromD toD nid : Date) (balance : ℤ)
    (frac : ℚ) :
    ((relDelta (minDate nid toD) fromD).2.1 = 1
        ∧ (relDelta (minDate nid toD) fromD).2.2 = 0 →
      proRataInterest false fromD toD nid balance frac = .ok 0)
    ∧ (¬((relDelta (minDate nid toD) fromD).2.1 = 1
          ∧ (relDelta (minDate nid toD) fromD).2.2 = 0) →
        ((relDelta (minDate nid toD) fromD).1 ≠ 0
          ∨ (relDelta (minDate nid toD) fromD).2.1 ≠ 0) →
      proRataInterest false fromD toD nid balance frac
        = .error .cursorTooFar)
    ∧ ((relDelta (minDate nid toD) fromD).1 = 0 →
        (relDelta (minDate nid toD) fromD).2.1 = 0 →
      proRataInterest false fromD toD nid balance frac
        = .ok (pyRound (((relDelta (minDate nid toD) fromD).2.2 : ℚ)
          * frac * (balance : ℚ) / 365))) := by
  refine ⟨?_, ?_, ?_⟩
  · intro h
    simp only [proRataInterest]
    rw [if_pos h]
  · intro h1 h2
    simp only [proRataInterest, Bool.false_eq_true, if_false]
    rw [if_neg h1, if_pos h2]
  · intro h1 h2
    have hn : ¬((relDelta (minDate nid toD) fromD).2.1 = 1
        ∧ (relDelta (minDate nid toD) fromD).2.2 = 0) := by
      intro hc; omega
    have ho : ¬((relDelta (minDate nid toD) fromD).1 ≠ 0
        ∨ (relDelta (minDate nid toD) fromD).2.1 ≠ 0) := by
      intro hc; tauto
    simp only [proRataInterest, Bool.false_eq_true, if_false]
    rw [if_neg hn, if_neg ho]

/-- Witness for C3 (amended): the repository test input — cursor
2022-01-08 from 2021-12-05 (a one-month-and-3-days span) raises
`CursorTooFarError`. -/
theorem pro_rata_cursor_rule_witness :
    ¬((relDelta (minDate ⟨2022,1,8⟩ ⟨2022,1,10⟩) ⟨2021,12,5⟩).2.1 = 1
        ∧ (relDelta (minDate ⟨2022,1,8⟩ ⟨2022,1,10⟩) ⟨2021,12,5⟩).2.2 = 0)
    ∧ ((relDelta (minDate ⟨2022,1,8⟩ ⟨2022,1,10⟩) ⟨2021,12,5⟩).1 ≠ 0
        ∨ (relDelta (minDate ⟨2022,1,8⟩ ⟨2022,1,10⟩) ⟨2021,12,5⟩).2.1 ≠ 0)
    ∧ proRataInterest false ⟨2021,12,5⟩ ⟨2022,1,10⟩ ⟨2022,1,8⟩ 35000
        (9/100) = .error .cursorTooFar :=
  ⟨by decide, by decide,
    (pro_rata_cursor_rule ⟨2021,12,5⟩ ⟨2022,1,10⟩ ⟨2022,1,8⟩ 35000
      (9/100)).2.1 (by decide) (by decide)⟩

/-- C7 (counterexample): splitting the full month 2021-12-01 → 2022-01-01
(balance 100000, rate 0.05) at 2021-12-16 gives 205 + 219 = 424, while
the single period gives 425 — the per-period rounding loses a cent. -/
theorem running_split_equals_single_cex :
    relDelta ⟨2022,1,1⟩ ⟨2021,12,1⟩ = (0, 1, 0)
    ∧ Except.map Prod.fst (runningCompute (fun _ _ => 0)
        [⟨⟨2021,12,1⟩, ⟨2021,12,16⟩, 100000, 1/20⟩,
         ⟨⟨2021,12,16⟩, ⟨2022,1,1⟩, 100000, 1/20⟩] .actualDays false none)
      = .ok 424
    ∧ Except.map Prod.fst (computeInterest (fun _ _ => 0) ⟨2021,12,1⟩
        ⟨2022,1,1⟩ 100000 (1/20) .actualDays false none none) = .ok 425
    ∧ (424 : ℤ) ≠ 425 := by
  refine ⟨by decide, ?_, ?_, by decide⟩
  · norm_num +decide [runningCompute, RunningInterest.init, Interest.init,
      runningAmountCents, runGo, amountCents, minDate, addMonthsClamped,
      monthIndexD, dateLeB, dateLtB, rataDie, isLeap, daysInMonth, pyRound,
      Except.map]
  · norm_num +decide [computeInterest, Interest.init, amountCents,
      minDate, addMonthsClamped, monthIndexD, dateLeB, dateLtB, rataDie,
      isLeap, daysInMonth, pyRound, Except.map]

/-- C7 (amended): over a full-month span split into two back-to-back
`RunningInterest` periods with the same balance and rate (default
actual-days convention, no compounding), each computation rounds its own
day pro-rata, so the split total equals the sum of the two per-period
roundings and agrees with the single-period amount only up to one cent
(pre-rounding the amounts are exactly equal; the counterexample shows a
one-cent difference is attained). -/
theorem running_split_within_one_cent (cm : ℤ → ℚ → ℤ) (f m t : Date)
    (balance : ℤ) (frac : ℚ)
    (hfull : relDelta t f = (0, 1, 0))
    (h1 : dateLeB f m = true) (h2 : dateLeB m t = true) :
    Except.map Prod.fst (runningCompute cm
        [⟨f, m, balance, frac⟩, ⟨m, t, balance, frac⟩]
        .actualDays false none)
      = .ok (pyRound ((balance : ℚ) * frac
            * ((rataDie m - rataDie f : ℤ) : ℚ) / 365)
          + pyRound ((balance : ℚ) * frac
            * ((rataDie t - rataDie m : ℤ) : ℚ) / 365))
    ∧ Except.map Prod.fst (computeInterest cm f t balance frac .actualDays
        false none none)
      = .ok (pyRound ((balance : ℚ) * frac
          * ((rataDie t - rataDie f : ℤ) : ℚ) / 365))
    ∧ (pyRound ((balance : ℚ) * frac
          * ((rataDie m - rataDie f : ℤ) : ℚ) / 365)
        + pyRound ((balance : ℚ) * frac
          * ((rataDie t - rataDie m : ℤ) : ℚ) / 365)
        - pyRound ((balance : ℚ) * frac
          * ((rataDie t - rataDie f : ℤ) : ℚ) / 365)).natAbs ≤ 1 := by
  have e1 : dateLtB m f = false := by simp [dateLtB, h1]
  have e2 : dateLtB t m = false := by simp [dateLtB, h2]
  have e3 : dateLtB t f = false := by simp [dateLtB, dateLeB_trans h1 h2]
  refine ⟨?_, ?_, ?_⟩
  · simp +decide [runningCompute, RunningInterest.init, Interest.init, e1,
      e2, runningAmountCents, runGo, amountCents, Except.map]
  · simp +decide [computeInterest, Interest.init, e3, amountCents,
      Except.map]
  · have hsum : (balance : ℚ) * frac * ((rataDie m - rataDie f : ℤ) : ℚ) / 365
        + (balance : ℚ) * frac * ((rataDie t - rataDie m : ℤ) : ℚ) / 365
        = (balance : ℚ) * frac * ((rataDie t - rataDie f : ℤ) : ℚ) / 365 := by
      push_cast
      ring
    rw [← hsum]
    exact pyRound_add_close _ _

/-- Witness for C7 (amended): the counterexample span, where the split
total 424 and the single amount 425 indeed differ by exactly one cent. -/
theorem running_split_within_one_cent_witness :
    relDelta ⟨2022,1,1⟩ ⟨2021,12,1⟩ = (0, 1, 0)
    ∧ dateLeB ⟨2021,12,1⟩ ⟨2021,12,16⟩ = true
    ∧ dateLeB ⟨2021,12,16⟩ ⟨2022,1,1⟩ = true
    ∧ (pyRound ((100000 : ℚ) * (1/20)
          * ((rataDie ⟨2021,12,16⟩ - rataDie ⟨2021,12,1⟩ : ℤ) : ℚ) / 365)
        + pyRound ((100000 : ℚ) * (1/20)
          * ((rataDie ⟨2022,1,1⟩ - rataDie ⟨2021,12,16⟩ : ℤ) : ℚ) / 365)
        - pyRound ((100000 : ℚ) * (1/20)
          * ((rataDie ⟨2022,1,1⟩ - rataDie ⟨2021,12,1⟩ : ℤ) : ℚ) / 365)).natAbs
      ≤ 1 :=
  ⟨by decide, by decide, by decide,
    (running_split_within_one_cent (fun _ _ => 0) ⟨2021,12,1⟩ ⟨2021,12,16⟩
      ⟨2022,1,1⟩ 100000 (1/20) (by decide) (by decide) (by decide)).2.2⟩

/-- On a list of periods none of which compounds monthly, the running
chain stamps the seed cursor into every period, changes nothing else, and
running it again from the resulting list reproduces the same total and
list. -/
theorem runGo_no_monthly (cm : ℤ → ℚ → ℤ) :
    ∀ (l : List Interest) (c : Date) (a : ℤ) (l2 : List Interest),
    (∀ p ∈ l, p.compound ≠ some "monthly") →
    runGo cm c l = .ok (a, l2) →
    l2 = l.map (fun p => { p with next_interest_date := c })
      ∧ runGo cm c l2 = .ok (a, l2) := by
  intro l
  induction l with
  | nil =>
    intro c a l2 hall h
    simp only [runGo] at h
    cases h
    exact ⟨rfl, rfl⟩
  | cons p rest ih =>
    intro c a l2 hall h
    simp only [runGo] at h
    cases hA : amountCents cm { p with next_interest_date := c } with
    | error e =>
      simp only [hA] at h
      exact absurd h (by simp)
    | ok v =>
      obtain ⟨a1, p2⟩ := v
      simp only [hA] at h
      cases hR : runGo cm p2.next_interest_date rest with
      | error e =>
        simp only [hR] at h
        exact absurd h (by simp)
      | ok w =>
        obtain ⟨s2, rest2⟩ := w
        simp only [hR] at h
        simp only [Except.ok.injEq, Prod.mk.injEq] at h
        obtain ⟨ha, hl⟩ := h
        subst ha
        subst hl
        have hp2 : p2 = { p with next_interest_date := c } :=
          amountCents_state_eq cm _ a1 p2
            (by
              have := hall p (List.mem_cons_self p rest)
              simpa using this)
            hA
        have hcur : p2.next_interest_date = c := by rw [hp2]
        have hrest := ih p2.next_interest_date s2 rest2
          (fun q hq => hall q (List.mem_cons_of_mem p hq)) hR
        rw [hcur] at hrest
        subst hp2
        refine ⟨by simp [hrest.1], ?_⟩
        simp only [runGo, hA, hrest.2]

/-- C8 (counterexample): with monthly compounding, the first
`amount_cents()` call advances the stored cursor of the period object
(here to 2022-04-01, past the span); the second call on the same list
then computes the whole span as one un-compounded pro-rata and returns
19397 instead of the first call's 19491. -/
theorem running_amount_twice_cex :
    runningCompute (fun _ _ => 0)
        [⟨⟨2022,1,1⟩, ⟨2022,3,1⟩, 1000000, 12/100⟩] .actualDays false
        (some "monthly")
      = .ok (19491, [⟨⟨2022,1,1⟩, ⟨2022,3,1⟩, 1000000, 12/100, .actualDays,
          false, some "monthly", ⟨2022,4,1⟩⟩])
    ∧ Except.map Prod.fst (runningAmountCents (fun _ _ => 0)
        [⟨⟨2022,1,1⟩, ⟨2022,3,1⟩, 1000000, 12/100, .actualDays, false,
          some "monthly", ⟨2022,4,1⟩⟩])
      = .ok 19397
    ∧ (19491 : ℤ) ≠ 19397 := by
  refine ⟨?_, ?_, by decide⟩
  · norm_num +decide [runningCompute, RunningInterest.init, Interest.init,
      runningAmountCents, runGo, amountCents, calculateSumPeriods,
      sumPeriodsCore, calcProRatas, proRataInterest, nextCompoundingDate,
      tryMkDate, minDate, relDelta, addMonthsClamped, monthIndexD, dateLeB,
      dateLtB, rataDie, isLeap, daysInMonth, pyRound, Except.map,
      compoundLoop, Int.tdiv, Int.tmod, Int.toNat]
  · norm_num +decide [runningAmountCents, runGo, amountCents,
      calculateSumPeriods, sumPeriodsCore, calcProRatas, proRataInterest,
      nextCompoundingDate, tryMkDate, minDate, relDelta, addMonthsClamped,
      monthIndexD, dateLeB, dateLtB, rataDie, isLeap, daysInMonth, pyRound,
      Except.map, compoundLoop, Int.tdiv, Int.tmod, Int.toNat]

/-- C8 (amended): `RunningInterest.amount_cents()` called twice on the
same unmutated input list returns the same value whenever the compound
mode is not `"monthly"` — without monthly compounding no cursor is ever
advanced, so the second call sees the same inputs; under monthly
compounding the first call mutates the periods' cursors and the second
call can return a different value. -/
theorem running_amount_idempotent_without_monthly (cm : ℤ → ℚ → ℤ)
    (l : List Interest) (a : ℤ) (l2 : List Interest)
    (hall : ∀ p ∈ l, p.compound ≠ some "monthly")
    (h : runningAmountCents cm l = .ok (a, l2)) :
    runningAmountCents cm l2 = .ok (a, l2) := by
  cases l with
  | nil =>
    simp only [runningAmountCents] at h
    cases h
    rfl
  | cons p rest =>
    simp only [runningAmountCents] at h
    obtain ⟨hl2, hgo⟩ := runGo_no_monthly cm (p :: rest)
      p.next_interest_date a l2 hall h
    have hhead : l2 = ({ p with next_interest_date := p.next_interest_date }
        : Interest) :: rest.map
          (fun q => { q with next_interest_date := p.next_interest_date }) := by
      simpa [List.map] using hl2
    rw [hhead] at hgo ⊢
    simpa [runningAmountCents] using hgo

/-- Witness for C8 (amended): a concrete non-monthly one-period list on
which the second call reproduces the first call's result. -/
theorem running_amount_idempotent_without_monthly_witness :
    (∀ p ∈ [(⟨⟨2022,1,1⟩, ⟨2022,1,15⟩, 1000, 1/10, .actualDays, false,
        none, ⟨2022,2,1⟩⟩ : Interest)], p.compound ≠ some "monthly")
    ∧ runningAmountCents (fun _ _ => 0)
        [⟨⟨2022,1,1⟩, ⟨2022,1,15⟩, 1000, 1/10, .actualDays, false, none,
          ⟨2022,2,1⟩⟩]
      = .ok (4, [⟨⟨2022,1,1⟩, ⟨2022,1,15⟩, 1000, 1/10, .actualDays, false,
          none, ⟨2022,2,1⟩⟩])
    ∧ runningAmountCents (fun _ _ => 0)
        [⟨⟨2022,1,1⟩, ⟨2022,1,15⟩, 1000, 1/10, .actualDays, false, none,
          ⟨2022,2,1⟩⟩]
      = .ok (4, [⟨⟨2022,1,1⟩, ⟨2022,1,15⟩, 1000, 1/10, .actualDays, false,
          none, ⟨2022,2,1⟩⟩]) := by
  have hfirst : runningAmountCents (fun _ _ => 0)
      [(⟨⟨2022,1,1⟩, ⟨2022,1,15⟩, 1000, 1/10, .actualDays, false, none,
        ⟨2022,2,1⟩⟩ : Interest)]
      = .ok (4, [⟨⟨2022,1,1⟩, ⟨2022,1,15⟩, 1000, 1/10, .actualDays, false,
          none, ⟨2022,2,1⟩⟩]) := by
    norm_num +decide [runningAmountCents, runGo, amountCents, rataDie,
      isLeap, pyRound, Except.map]
  exact ⟨by decide, hfirst,
    running_amount_idempotent_without_monthly (fun _ _ => 0) _ 4 _
      (by decide) hfirst⟩

/-- The date order is reflexive. -/
theorem dateLeB_refl (a : Date) : dateLeB a a = true := by
  simp [dateLeB]

/-- Every month has at least 28 days. -/
theorem daysInMonth_ge (y m : ℤ) : 28 ≤ daysInMonth y m := by
  unfold daysInMonth
  split_ifs <;> norm_num

/-- A clamped month shift of a valid date is valid. -/
theorem addMonthsClamped_valid (d : Date) (k : ℤ) (hd : d.Valid) :
    (addMonthsClamped d k).Valid := by
  obtain ⟨h1, h2, h3, h4⟩ := hd
  have hb := addMonthsClamped_month_bounds d k
  have hg := daysInMonth_ge ((monthIndexD d + k) / 12)
    ((monthIndexD d + k) % 12 + 1)
  refine ⟨hb.1, hb.2, ?_, ?_⟩ <;>
    simp only [addMonthsClamped] <;> omega

/-- A zero-month shift of a valid date is the identity. -/
theorem addMonthsClamped_zero (d : Date) (hd : d.Valid) :
    addMonthsClamped d 0 = d := by
  obtain ⟨y, m, dd⟩ := d
  obtain ⟨h1, h2, h3, h4⟩ := hd
  replace h1 : 1 ≤ m := h1
  replace h2 : m ≤ 12 := h2
  replace h3 : 1 ≤ dd := h3
  replace h4 : dd ≤ daysInMonth y m := h4
  have hy : (12 * y + (m - 1) + 0) / 12 = y := by omega
  have hm : (12 * y + (m - 1) + 0) % 12 + 1 = m := by omega
  simp only [addMonthsClamped, monthIndexD, hy, hm, Date.mk.injEq]
  exact ⟨trivial, trivial, by omega⟩

/-- `relativedelta` of a one-month shift against its base date is exactly
one month. -/
theorem relDelta_addMonth_one (d : Date) (hd : d.Valid) :
    relDelta (addMonthsClamped d 1) d = (0, 1, 0) := by
  have hmi := monthIndexD_addMonthsClamped d 1
  have hb := addMonthsClamped_month_bounds d 1
  have hle : dateLeB d (addMonthsClamped d 1) = true := by
    rw [dateLeB_iff]
    obtain ⟨h1, h2, h3, h4⟩ := hd
    simp only [monthIndexD] at hmi
    omega
  have hm0 : monthIndexD (addMonthsClamped d 1) - monthIndexD d = 1 := by
    omega
  have hirr : dateLtB (addMonthsClamped d 1) (addMonthsClamped d 1)
      = false := by
    simp [dateLtB, dateLeB_refl]
  simp only [relDelta, hm0, hle, if_true, hirr, Bool.false_eq_true,
    if_false, sub_self]
  norm_num [Int.tdiv, Int.tmod]

/-- When `to` lies on or after `from` but strictly before `from` plus one
month, `relativedelta` has no year or month component. -/
theorem relDelta_lt_month (f t : Date) (hf : f.Valid) (ht : t.Valid)
    (hle : dateLeB f t = true)
    (hnb : dateLeB (addMonthsClamped f 1) t = false) :
    relDelta t f = (0, 0, rataDie t - rataDie f) := by
  have hmi := monthIndexD_addMonthsClamped f 1
  have hb := addMonthsClamped_month_bounds f 1
  have hf2 := hf
  have ht2 := ht
  obtain ⟨hfa, hfb, hfc, hfd⟩ := hf2
  obtain ⟨hta, htb, htc, htd⟩ := ht2
  have h1 : monthIndexD f ≤ monthIndexD t := by
    rw [dateLeB_iff] at hle
    simp only [monthIndexD]
    omega
  have h2 : monthIndexD t ≤ monthIndexD f + 1 := by
    have hiff := dateLeB_iff (addMonthsClamped f 1) t
    rw [hnb] at hiff
    simp only [Bool.false_eq_true, false_iff] at hiff
    simp only [monthIndexD] at hmi hiff ⊢
    omega
  have hltf : dateLtB t f = false := by simp [dateLtB, hle]
  have hz := addMonthsClamped_zero f hf
  have hm01 : monthIndexD t - monthIndexD f = 0
      ∨ monthIndexD t - monthIndexD f = 1 := by omega
  cases hm01 with
  | inl h0 =>
    simp only [relDelta, h0, hle, if_true, hz, hltf, Bool.false_eq_true,
      if_false]
    norm_num [Int.tdiv, Int.tmod]
  | inr h1m =>
    have hlt1 : dateLtB t (addMonthsClamped f 1) = true := by
      simp [dateLtB, hnb]
    simp only [relDelta, h1m, hle, if_true, hlt1]
    norm_num [hz, Int.tdiv, Int.tmod]

/-- With the default cursor (one month after `from_date`) and rate 0, the
pro-rata head is 0 and raises nothing: the sub-period is either exactly
one month (the zero branch) or shorter than a month. -/
theorem proRataInterest_zero_default (isAD : Bool) (f t : Date)
    (balance : ℤ) (hf : f.Valid) (ht : t.Valid)
    (hle : dateLeB f t = true) :
    proRataInterest isAD f t (addMonthsClamped f 1) balance 0 = .ok 0 := by
  cases hc : dateLeB (addMonthsClamped f 1) t with
  | true =>
    have hmin : minDate (addMonthsClamped f 1) t = addMonthsClamped f 1 := by
      simp [minDate, hc]
    have hrd := relDelta_addMonth_one f hf
    simp only [proRataInterest, hmin, hrd]
    norm_num
  | false =>
    have hmin : minDate (addMonthsClamped f 1) t = t := by
      simp [minDate, hc]
    have hrd := relDelta_lt_month f t hf ht hle hc
    simp only [proRataInterest, hmin, hrd]
    cases isAD <;> norm_num [pyRound_zero]

/-- The calendar-month pro-rata head at rate 0 is 0. -/
theorem prorataAtStart_zero (isEM : Bool) (f t : Date) (balance : ℤ) :
    prorataAtStart isEM f t balance 0 = 0 := by
  simp only [prorataAtStart]
  norm_num [pyRound_zero]

/-- At rate 0 every iteration of the compounding loop contributes 0. -/
theorem compoundLoop_zero_sum (cm : ℤ → ℚ → ℤ) (isAD : Bool) (ad : ℤ)
    (toD : Date) (hcm : ∀ b, cm b 0 = 0) :
    ∀ (n : ℕ) (nid dfrom : Date) (cur : ℤ) (acc : List ℤ),
    ((compoundLoop cm isAD ad 0 toD n nid dfrom cur acc).2.2.2).sum
      = acc.sum := by
  intro n
  induction n with
  | zero => intro nid dfrom cur acc; rfl
  | succ k ih =>
    intro nid dfrom cur acc
    simp only [compoundLoop]
    have hz : (if isAD = true then pyRound ((cur : ℚ) * 0
        * ((rataDie (nextCompoundingDate ad dfrom) - rataDie dfrom : ℤ) : ℚ)
        / 365) else cm cur 0) = 0 := by
      cases isAD <;> simp [hcm, pyRound_zero]
    rw [hz, ih]
    simp

/-- At rate 0 and with the default cursor, `calculate_sum_periods` sums
only zero contributions. -/
theorem sumPeriodsCore_zero (cm : ℤ → ℚ → ℤ) (isAD isEM isMon calM : Bool)
    (f t : Date) (balance : ℤ) (hcm : ∀ b, cm b 0 = 0)
    (hf : f.Valid) (ht : t.Valid) (hle : dateLeB f t = true) :
    Except.map Prod.fst (sumPeriodsCore cm isAD isEM isMon calM f t
      (addMonthsClamped f 1) balance 0) = .ok 0 := by
  have hhead : ∃ fromNew, calcProRatas isAD isEM calM f t
      (addMonthsClamped f 1) balance 0 = .ok ([0], fromNew) := by
    cases calM with
    | true =>
      exact ⟨minDate (som f) t, by
        simp [calcProRatas, prorataAtStart_zero]⟩
    | false =>
      refine ⟨minDate f t, ?_⟩
      simp [calcProRatas,
        proRataInterest_zero_default isAD f t balance hf ht hle]
  obtain ⟨fromNew, hhead⟩ := hhead
  have hloop := compoundLoop_zero_sum cm isAD f.day t hcm
  cases isMon with
  | false =>
    simp only [sumPeriodsCore, hhead, Bool.false_eq_true, if_false]
    norm_num [hcm, pyRound_zero, Except.map]
  | true =>
    simp only [sumPeriodsCore, hhead, if_true]
    norm_num [pyRound_zero, Except.map, List.sum_append, hloop]

/-- C9: computing interest at rate 0 over any valid span returns exactly
0, for every balance, convention, compounding mode and calendar-months
setting (hypothesis `hcm` records that the geometric monthly rate of a
zero annual rate is exactly zero, `round(b*((1+0)**(1/12)-1)) = 0`). -/
theorem zero_rate_zero_interest (cm : ℤ → ℚ → ℤ) (f t : Date)
    (balance : ℤ) (method : CalcMethod) (calM : Bool)
    (comp : Option String)
    (hcm : ∀ b, cm b 0 = 0) (hf : f.Valid) (ht : t.Valid)
    (hle : dateLeB f t = true) :
    Except.map Prod.fst
      (computeInterest cm f t balance 0 method calM comp none) = .ok 0 := by
  have hltf : dateLtB t f = false := by simp [dateLtB, hle]
  simp only [computeInterest, Interest.init, hltf, Bool.false_eq_true,
    if_false]
  unfold amountCents
  split_ifs with hfast
  · simp [Except.map, pyRound_zero]
  · unfold calculateSumPeriods
    have hz := sumPeriodsCore_zero cm (decide (method = CalcMethod.actualDays))
      (decide (method = CalcMethod.equalMonths))
      (decide (comp = some "monthly")) calM f t balance hcm hf ht hle
    cases hcore : sumPeriodsCore cm (decide (method = CalcMethod.actualDays))
        (decide (method = CalcMethod.equalMonths))
        (decide (comp = some "monthly")) calM f t
        (addMonthsClamped f 1) balance 0 with
    | error e =>
      rw [hcore] at hz
      exact absurd hz (by simp [Except.map])
    | ok v =>
      obtain ⟨a, nid2⟩ := v
      rw [hcore] at hz
      simp only [Except.map] at hz
      have ha : a = 0 := by simpa using hz
      simp [hcore, ha, pyRound_intCast, pyRound_zero, Except.map]

/-- Witness for C9: a zero-rate equal-months, calendar-month, monthly
compounded computation over 2022-01-31 → 2023-03-15 returns 0. -/
theorem zero_rate_zero_interest_witness :
    (∀ b : ℤ, (fun (_ : ℤ) (_ : ℚ) => (0 : ℤ)) b 0 = 0)
    ∧ (⟨2022,1,31⟩ : Date).Valid
    ∧ (⟨2023,3,15⟩ : Date).Valid
    ∧ dateLeB ⟨2022,1,31⟩ ⟨2023,3,15⟩ = true
    ∧ Except.map Prod.fst (computeInterest (fun _ _ => 0) ⟨2022,1,31⟩
        ⟨2023,3,15⟩ 123456 0 .equalMonths true (some "monthly") none)
      = .ok 0 :=
  ⟨fun _ => rfl, by decide, by decide, by decide,
    zero_rate_zero_interest (fun _ _ => 0) ⟨2022,1,31⟩ ⟨2023,3,15⟩ 123456
      .equalMonths true (some "monthly") (fun _ => rfl) (by decide)
      (by decide) (by decide)⟩
